import Mathlib

/-!
Shallow embedding of the lightshow firmware (src/src/main.cpp).

The firmware is a single-threaded polling loop that turns microphone sample
blocks into a smoothed volume and an LED pattern.  Machine `float` arithmetic
is modelled over `ℝ`; `int32_t` samples are modelled as `ℤ` (the arithmetic
shift `>> 14` is floor division by `2 ^ 14`).  A cycle's i2s read is modelled
as `Option (List ℤ)`: `none` is a failed or zero-byte read, `some block` is the
list of raw 32-bit samples obtained.  Wall-clock branches (`millis()`
comparisons against UPDATE_INTERVAL and CALIBRATION_WINDOW) are modelled as
boolean inputs of the cycle.
-/

namespace Lightshow

/-- `sBuffer[i] >> 14` (arithmetic shift of the signed 32-bit sample,
i.e. floor division by `2 ^ 14 = 16384`). -/
def shifted14 (x : ℤ) : ℤ := Int.fdiv x 16384

/-- The shifted samples of a block that survive the spike filter
`if (abs(sample) < threshold)`.  The threshold is 100000 in the main loop
and 50000 during calibration. -/
def validShifted (block : List ℤ) (threshold : ℤ) : List ℤ :=
  (block.map shifted14).filter (fun s => decide (|s| < threshold))

/-- The product `sample * sample` as the firmware computes it: both operands
are `int32_t`, so the multiplication is 32-bit two's-complement and wraps for
any `|sample| >= 46341` (for example `48000 * 48000` yields `-1990967296`,
not `2304000000`). -/
def sq32 (s : ℤ) : ℤ := (s * s + 2 ^ 31) % 2 ^ 32 - 2 ^ 31

/-- The value of the float accumulator `sum` after the per-sample loop: the
sum of the 32-bit-wrapped squares of the valid shifted samples.  Because the
per-sample products wrap, this sum can be negative. -/
noncomputable def sumSq32 (block : List ℤ) (threshold : ℤ) : ℝ :=
  ((validShifted block threshold).map (fun s => ((sq32 s : ℤ) : ℝ))).sum

/-- RMS of one sample block: `sqrt(sum / validSamples)` where `sum` is the
accumulated `sample * sample` (32-bit-wrapped, see `sumSq32`) over the valid
shifted samples; `none` when no valid sample remained (`validSamples == 0`),
in which case the loop skips all updates.  Caveat: when the wrapped sum is
negative the firmware's `sqrt` returns NaN, which `ℝ` cannot represent
(`Real.sqrt` returns 0 there); theorems about the RMS value therefore carry
an explicit `0 ≤ sumSq32` hypothesis restricting them to the NaN-free
executions. -/
noncomputable def blockRms (block : List ℤ) (threshold : ℤ) : Option ℝ :=
  let v := validShifted block threshold
  if v.length = 0 then none
  else some (Real.sqrt (sumSq32 block threshold / (v.length : ℝ)))

/-- Arduino `constrain(amt, low, high)` on floats:
`(amt < low) ? low : ((amt > high) ? high : amt)`. -/
noncomputable def constrainR (x lo hi : ℝ) : ℝ :=
  if x < lo then lo else if x > hi then hi else x

/-- Arduino `constrain` on integers (used for the LED count). -/
def constrainZ (x lo hi : ℤ) : ℤ :=
  if x < lo then lo else if x > hi then hi else x

/-- `max(0.0f, rms - baselineNoise)` — step (a) of the gain normalizer. -/
noncomputable def calibratedVolumeOf (rms baselineNoise : ℝ) : ℝ :=
  max 0 (rms - baselineNoise)

/-- The noise gate `if (calibratedVolume < 100) calibratedVolume = 0;` —
step (b) of the gain normalizer. -/
noncomputable def noiseGate (calibratedVolume : ℝ) : ℝ :=
  if calibratedVolume < 100 then 0 else calibratedVolume

/-- Steps (a)-(d) of the gain normalizer:
`constrain(calibratedVolume * dynamicScaleFactor, 0.0f, MAX_VOLUME_TARGET)`
applied to the gated, baseline-subtracted RMS. -/
noncomputable def rawVolumeOf (rms baselineNoise scale : ℝ) : ℝ :=
  constrainR (noiseGate (calibratedVolumeOf rms baselineNoise) * scale) 0 3000

/-- The rate limiter of the temporal smoother:
`if (volumeDelta > MAX_VOLUME_TARGET * 0.3f)` replace `volume` by
`previousVolume ± MAX_VOLUME_TARGET * 0.05f` in the direction of change. -/
noncomputable def rateLimit (volume previousVolume : ℝ) : ℝ :=
  if |volume - previousVolume| > 3000 * 0.3 then
    previousVolume + (if volume > previousVolume then 3000 * 0.05 else -(3000 * 0.05))
  else volume

/-- All mutable state of the firmware that the processing loop reads or
writes: the global scalars, the three circular buffers with their write
cursors, and the static `previousVolume` of `loop()`. -/
structure LoopState where
  volume : ℝ
  smoothVolume : ℝ
  previousVolume : ℝ
  volumeFilter : Fin 5 → ℝ
  filterIndex : Fin 5
  rawVolumeHistory : Fin 500 → ℝ
  volumeIndex : Fin 500
  baselineNoise : ℝ
  dynamicScaleFactor : ℝ
  peakHistory : Fin 10 → ℝ
  peakIndex : Fin 10
  peakCount : ℕ
  maxVolume : ℝ

/-- The body of the `if (validSamples > 0)` branch of `loop()`: gain
normalization, the 5-slot moving average, the rate limiter, the EMA, and the
store of the pre-gain calibrated volume into `rawVolumeHistory`. -/
noncomputable def processValid (s : LoopState) (rms : ℝ) : LoopState :=
  let calibratedVolume := noiseGate (calibratedVolumeOf rms s.baselineNoise)
  let rawVolume := constrainR (calibratedVolume * s.dynamicScaleFactor) 0 3000
  let volumeFilter := Function.update s.volumeFilter s.filterIndex rawVolume
  let filterIndex := s.filterIndex + 1
  let volume0 := (Finset.univ.sum volumeFilter) / 5
  let volume := rateLimit volume0 s.previousVolume
  let smoothVolume := s.smoothVolume * (1 - 0.8) + volume * 0.8
  { s with
    volume := volume
    smoothVolume := smoothVolume
    previousVolume := volume
    volumeFilter := volumeFilter
    filterIndex := filterIndex
    rawVolumeHistory := Function.update s.rawVolumeHistory s.volumeIndex calibratedVolume
    volumeIndex := s.volumeIndex + 1 }

/-- The audio part of one `loop()` iteration: a failed or empty read
(`input = none`) or a block with no valid samples leaves the state unchanged,
otherwise the RMS of the block is processed. -/
noncomputable def processAudio (s : LoopState) (input : Option (List ℤ)) : LoopState :=
  match input with
  | none => s
  | some block =>
    match blockRms block 100000 with
    | none => s
    | some rms => processValid s rms

/-- `addPeakToHistory(float peak)`. -/
noncomputable def addPeakToHistory (s : LoopState) (peak : ℝ) : LoopState :=
  { s with
    peakHistory := Function.update s.peakHistory s.peakIndex peak
    peakIndex := s.peakIndex + 1
    peakCount := if s.peakCount < 10 then s.peakCount + 1 else s.peakCount }

/-- `getAveragePeak()`: 0 when `peakCount == 0`, otherwise the mean of
`peakHistory[0 .. peakCount-1]`. -/
noncomputable def getAveragePeak (s : LoopState) : ℝ :=
  if s.peakCount = 0 then 0
  else (((List.ofFn s.peakHistory).take s.peakCount).sum) / (s.peakCount : ℝ)

/-- The scan `for i < VOLUME_SAMPLES: if (rawVolumeHistory[i] > currentMaxDetected) ...`
starting from `currentMaxDetected = 0`. -/
noncomputable def currentMaxDetected (s : LoopState) : ℝ :=
  (List.ofFn s.rawVolumeHistory).foldl max 0

/-- `if (currentMaxDetected > baselineNoise * 2) addPeakToHistory(currentMaxDetected);` -/
noncomputable def insertSignificantPeak (s : LoopState) : LoopState :=
  if currentMaxDetected s > s.baselineNoise * 2 then
    addPeakToHistory s (currentMaxDetected s)
  else s

/-- The periodic AGC recalibration: insert the window peak when significant,
then blend `newScale = MAX_VOLUME_TARGET / averagePeak` into
`dynamicScaleFactor` when `averagePeak > 0` (and refresh `maxVolume`). -/
noncomputable def recalibrateScale (s : LoopState) : LoopState :=
  let s1 := insertSignificantPeak s
  let averagePeak := getAveragePeak s1
  if averagePeak > 0 then
    let newScale := 3000 / averagePeak
    let dsf := s1.dynamicScaleFactor * 0.8 + newScale * 0.2
    { s1 with dynamicScaleFactor := dsf, maxVolume := averagePeak * dsf }
  else s1

/-- The inputs of one `loop()` iteration: the i2s read outcome and the two
wall-clock conditions (`now - lastUpdate > UPDATE_INTERVAL` and
`now - lastCalibration >= CALIBRATION_WINDOW`). -/
structure CycleInput where
  read : Option (List ℤ)
  doUpdate : Bool
  doCalib : Bool

/-- One full `loop()` iteration (LED and telemetry output have no effect on
the processing state). -/
noncomputable def loopStep (s : LoopState) (c : CycleInput) : LoopState :=
  let s1 := processAudio s c.read
  if c.doUpdate then (if c.doCalib then recalibrateScale s1 else s1) else s1

/-- Any number of `loop()` iterations. -/
noncomputable def runLoop (s : LoopState) (cs : List CycleInput) : LoopState :=
  cs.foldl loopStep s

/-- The state at the start of the main loop: all buffers zeroed by `setup()`,
`volume = smoothVolume = 0`, the static `previousVolume = 0`,
`dynamicScaleFactor = 2.0`, `maxVolume = MAX_VOLUME_TARGET`; the baseline is
whatever `calibrateBaseline()` produced. -/
noncomputable def initState (baseline : ℝ) : LoopState :=
  { volume := 0
    smoothVolume := 0
    previousVolume := 0
    volumeFilter := fun _ => 0
    filterIndex := 0
    rawVolumeHistory := fun _ => 0
    volumeIndex := 0
    baselineNoise := baseline
    dynamicScaleFactor := 2
    peakHistory := fun _ => 0
    peakIndex := 0
    peakCount := 0
    maxVolume := 3000 }

/-- One iteration of the accumulation in `calibrateBaseline()`: a failed read
or a block with no valid samples contributes nothing, otherwise the block RMS
(with the calibration spike threshold 50000) is added and the valid-sample
counter incremented. -/
noncomputable def calibStep (acc : ℝ × ℕ) (readResult : Option (List ℤ)) : ℝ × ℕ :=
  match readResult with
  | none => acc
  | some block =>
    match blockRms block 50000 with
    | none => acc
    | some rms => (acc.1 + rms, acc.2 + 1)

/-- `calibrateBaseline()` over the CALIBRATION_SAMPLES read outcomes:
`baselineNoise = totalNoise / validSamples` when `validSamples > 0`,
otherwise the compiled-in default 15000 is kept. -/
noncomputable def calibrateBaseline (reads : List (Option (List ℤ))) : ℝ :=
  let acc := reads.foldl calibStep (0, 0)
  if acc.2 > 0 then acc.1 / (acc.2 : ℝ) else 15000

/-- `numLedsToLight` as computed by `updateLedsByVolume()` from
`smoothVolume`. -/
noncomputable def numLedsToLight (smoothVolume : ℝ) : ℤ :=
  if smoothVolume > 1500 then
    if smoothVolume ≥ 3000 * 0.95 then 60
    else
      let normalized := (smoothVolume - 1500) / (3000 - 1500)
      constrainZ (round (normalized ^ (0.7 : ℝ) * 60)) 1 60
  else 0

/-- The strip index lit for ordinal `i` in `updateLedsByVolume()`:
`center + i/2` for even `i`, `center - 1 - i/2` for odd `i`,
with `center = LED_COUNT / 2 = 30`. -/
def ledIndexFor (i : ℕ) : ℤ :=
  if i % 2 = 0 then 30 + ((i / 2 : ℕ) : ℤ) else 30 - 1 - ((i / 2 : ℕ) : ℤ)

/-- The serial-plotter line emitted each update tick, as the concatenation of
the `Serial.print` calls of `loop()` (a formatter for the three float values
is taken as a parameter). -/
def telemetryLine (fmt : ℝ → String) (volume smoothVolume maxVolume : ℝ) : String :=
  "MinRange:" ++ toString (-1000 : ℤ) ++ "Volume:" ++ fmt volume ++
    ",SmoothVolume:" ++ fmt smoothVolume ++ ",MaxVolume:" ++ fmt maxVolume ++
    ",MaxRange:" ++ toString (5000 : ℤ) ++ "\n"

/-! ### Helper lemmas -/

lemma constrainR_bounds (x lo hi : ℝ) (h : lo ≤ hi) :
    lo ≤ constrainR x lo hi ∧ constrainR x lo hi ≤ hi := by
  unfold constrainR
  split_ifs with h1 h2 <;> constructor <;> linarith

lemma processAudio_some_of_rms (s : LoopState) (block : List ℤ) (r : ℝ)
    (hr : blockRms block 100000 = some r) :
    processAudio s (some block) = processValid s r := by
  simp only [processAudio, hr]

lemma processValid_rawVolumeHistory (s : LoopState) (rms : ℝ) :
    (processValid s rms).rawVolumeHistory
      = Function.update s.rawVolumeHistory s.volumeIndex
          (noiseGate (calibratedVolumeOf rms s.baselineNoise)) := rfl

/-! ### Claims -/

/-- C1: the gain normalizer computes, in this order, (a) `max(0, rms -
baselineNoise)`, (b) a noise gate forcing values below 100 to exactly 0,
(c) multiplication by `dynamicScaleFactor`, (d) a clamp into
`[0, MAX_VOLUME_TARGET] = [0, 3000]`; its output always lies in that range,
and the value stored into `rawVolumeHistory` (the AGC's VolumeHistoryWindow)
by a valid cycle is the post-gate, pre-scaling value from steps (a)/(b). -/
theorem gainNormalizer_order_bounds_history (rms b sc : ℝ) (hb : 0 ≤ b) (hsc : 0 < sc)
    (s : LoopState) (block : List ℤ) (r : ℝ) (hr : blockRms block 100000 = some r) :
    rawVolumeOf rms b sc
        = constrainR ((if max 0 (rms - b) < 100 then 0 else max 0 (rms - b)) * sc) 0 3000
      ∧ 0 ≤ rawVolumeOf rms b sc ∧ rawVolumeOf rms b sc ≤ 3000
      ∧ (processAudio s (some block)).rawVolumeHistory s.volumeIndex
          = (if max 0 (r - s.baselineNoise) < 100 then 0 else max 0 (r - s.baselineNoise)) := by
  refine ⟨rfl, (constrainR_bounds _ _ _ (by norm_num)).1,
    (constrainR_bounds _ _ _ (by norm_num)).2, ?_⟩
  rw [processAudio_some_of_rms s block r hr, processValid_rawVolumeHistory,
    Function.update_same]
  rfl

theorem gainNormalizer_witness :
    0 ≤ rawVolumeOf 200 0 1 ∧ rawVolumeOf 200 0 1 ≤ 3000
      ∧ (processAudio (initState 15000) (some [0])).rawVolumeHistory
            (initState 15000).volumeIndex
          = (if max 0 ((0:ℝ) - (initState 15000).baselineNoise) < 100 then 0
             else max 0 ((0:ℝ) - (initState 15000).baselineNoise)) := by
  have h0 : blockRms [0] 100000 = some 0 := by
    norm_num [blockRms, sumSq32, sq32, validShifted, shifted14, Int.fdiv, Real.sqrt_zero]
  have h := gainNormalizer_order_bounds_history 200 0 1 le_rfl one_pos
    (initState 15000) [0] 0 h0
  exact ⟨h.2.1, h.2.2.1, h.2.2.2⟩

/-- C3: whenever this cycle's moving-average output differs from the previous
cycle's final pre-EMA smoothed value by more than `MAX_VOLUME_TARGET * 0.3 =
900`, the rate limiter replaces it by the previous value plus exactly
`MAX_VOLUME_TARGET * 0.05 = 150` in the direction of change, so the per-cycle
change of its output never exceeds 150 in magnitude in that case. -/
theorem rateLimiter_step_bounded (vol prev : ℝ) (h : |vol - prev| > 3000 * 0.3) :
    rateLimit vol prev = prev + (if vol > prev then 3000 * 0.05 else -(3000 * 0.05))
      ∧ (vol > prev → rateLimit vol prev = prev + 150)
      ∧ (vol < prev → rateLimit vol prev = prev - 150)
      ∧ |rateLimit vol prev - prev| ≤ 150 := by
  unfold rateLimit
  rw [if_pos h]
  refine ⟨rfl, ?_, ?_, ?_⟩
  · intro hgt; rw [if_pos hgt]; norm_num
  · intro hlt
    rw [if_neg (asymm hlt), show -(3000 * 0.05) = (-150 : ℝ) by norm_num]
    ring
  · split_ifs with hgt
    · rw [show prev + 3000 * 0.05 - prev = 150 by ring]
      rw [abs_of_nonneg (by norm_num)]
    · rw [show prev + -(3000 * 0.05) - prev = -150 by ring]
      rw [abs_of_nonpos (by norm_num)]
      norm_num

theorem rateLimiter_witness :
    rateLimit 1000 0 = 0 + 150 ∧ |rateLimit 1000 0 - 0| ≤ 150 :=
  ⟨(rateLimiter_step_bounded 1000 0 (by norm_num)).2.1 (by norm_num),
   (rateLimiter_step_bounded 1000 0 (by norm_num)).2.2.2⟩

lemma blockRms_none_of_empty (block : List ℤ) (T : ℤ) (h : validShifted block T = []) :
    blockRms block T = none := by
  simp [blockRms, h]

lemma recalibrateScale_audio_fields (s : LoopState) :
    (recalibrateScale s).volume = s.volume
      ∧ (recalibrateScale s).smoothVolume = s.smoothVolume
      ∧ (recalibrateScale s).previousVolume = s.previousVolume
      ∧ (recalibrateScale s).volumeFilter = s.volumeFilter
      ∧ (recalibrateScale s).filterIndex = s.filterIndex
      ∧ (recalibrateScale s).rawVolumeHistory = s.rawVolumeHistory
      ∧ (recalibrateScale s).volumeIndex = s.volumeIndex := by
  simp only [recalibrateScale, insertSignificantPeak, addPeakToHistory]
  split_ifs <;> exact ⟨rfl, rfl, rfl, rfl, rfl, rfl, rfl⟩

/-- C4: a cycle whose read fails or returns zero bytes (`read = none`), or
whose block is entirely rejected by the outlier filter, leaves `volume`,
`smoothVolume`, `previousVolume`, the moving-average window and its cursor,
and the volume-history window and its cursor unchanged. -/
theorem failed_or_empty_read_no_update (s : LoopState) (c : CycleInput)
    (h : c.read = none ∨ ∃ block, c.read = some block ∧ validShifted block 100000 = []) :
    (loopStep s c).volume = s.volume
      ∧ (loopStep s c).smoothVolume = s.smoothVolume
      ∧ (loopStep s c).previousVolume = s.previousVolume
      ∧ (loopStep s c).volumeFilter = s.volumeFilter
      ∧ (loopStep s c).filterIndex = s.filterIndex
      ∧ (loopStep s c).rawVolumeHistory = s.rawVolumeHistory
      ∧ (loopStep s c).volumeIndex = s.volumeIndex := by
  have hpa : processAudio s c.read = s := by
    rcases h with h | ⟨block, hb, hempty⟩
    · rw [h]; rfl
    · rw [hb]
      simp only [processAudio, blockRms_none_of_empty block 100000 hempty]
  simp only [loopStep, hpa]
  split_ifs
  · exact recalibrateScale_audio_fields s
  · exact ⟨rfl, rfl, rfl, rfl, rfl, rfl, rfl⟩
  · exact ⟨rfl, rfl, rfl, rfl, rfl, rfl, rfl⟩

theorem failed_read_witness :
    (loopStep (initState 15000) ⟨some [2000000000], true, true⟩).volume
        = (initState 15000).volume
      ∧ (loopStep (initState 15000) ⟨some [2000000000], true, true⟩).smoothVolume
        = (initState 15000).smoothVolume
      ∧ (loopStep (initState 15000) ⟨some [2000000000], true, true⟩).previousVolume
        = (initState 15000).previousVolume
      ∧ (loopStep (initState 15000) ⟨some [2000000000], true, true⟩).volumeFilter
        = (initState 15000).volumeFilter
      ∧ (loopStep (initState 15000) ⟨some [2000000000], true, true⟩).filterIndex
        = (initState 15000).filterIndex
      ∧ (loopStep (initState 15000) ⟨some [2000000000], true, true⟩).rawVolumeHistory
        = (initState 15000).rawVolumeHistory
      ∧ (loopStep (initState 15000) ⟨some [2000000000], true, true⟩).volumeIndex
        = (initState 15000).volumeIndex :=
  failed_or_empty_read_no_update (initState 15000) ⟨some [2000000000], true, true⟩
    (Or.inr ⟨[2000000000], rfl, by decide⟩)

/-! ### AGC invariant -/

lemma foldl_max_le_init (l : List ℝ) : ∀ a : ℝ, a ≤ l.foldl max a := by
  induction l with
  | nil => intro a; exact le_rfl
  | cons x t ih => intro a; exact le_trans (le_max_left a x) (ih (max a x))

lemma currentMaxDetected_nonneg (s : LoopState) : 0 ≤ currentMaxDetected s :=
  foldl_max_le_init _ 0

lemma getAveragePeak_nonneg (s : LoopState) (h : ∀ i, 0 ≤ s.peakHistory i) :
    0 ≤ getAveragePeak s := by
  unfold getAveragePeak
  split_ifs with h0
  · exact le_rfl
  · apply div_nonneg
    · apply List.sum_nonneg
      intro x hx
      have hx2 : x ∈ List.ofFn s.peakHistory := List.take_subset _ _ hx
      rcases (List.mem_ofFn _ _).mp hx2 with ⟨i, rfl⟩
      exact h i
    · positivity

/-- The state properties that make the AGC safe: all recorded peaks are
non-negative and the gain is strictly positive. -/
def AgcInv (s : LoopState) : Prop :=
  (∀ i, 0 ≤ s.peakHistory i) ∧ 0 < s.dynamicScaleFactor

lemma AgcInv_addPeak (s : LoopState) (p : ℝ) (hp : 0 ≤ p) (h : AgcInv s) :
    AgcInv (addPeakToHistory s p) := by
  refine ⟨fun i => ?_, h.2⟩
  show 0 ≤ Function.update s.peakHistory s.peakIndex p i
  rcases eq_or_ne i s.peakIndex with rfl | hne
  · rw [Function.update_same]; exact hp
  · rw [Function.update_noteq hne]; exact h.1 i

lemma AgcInv_insert (s : LoopState) (h : AgcInv s) : AgcInv (insertSignificantPeak s) := by
  unfold insertSignificantPeak
  split_ifs with hc
  · exact AgcInv_addPeak s _ (currentMaxDetected_nonneg s) h
  · exact h

lemma insert_dsf (s : LoopState) :
    (insertSignificantPeak s).dynamicScaleFactor = s.dynamicScaleFactor := by
  unfold insertSignificantPeak
  split_ifs <;> rfl

lemma AgcInv_recalibrate (s : LoopState) (h : AgcInv s) : AgcInv (recalibrateScale s) := by
  have h1 := AgcInv_insert s h
  simp only [recalibrateScale]
  split_ifs with havg
  · refine ⟨h1.1, ?_⟩
    have hns : 0 < 3000 / getAveragePeak (insertSignificantPeak s) :=
      div_pos (by norm_num) havg
    have hd := h1.2
    show 0 < (insertSignificantPeak s).dynamicScaleFactor * 0.8
        + 3000 / getAveragePeak (insertSignificantPeak s) * 0.2
    nlinarith
  · exact h1

lemma AgcInv_processAudio (s : LoopState) (input : Option (List ℤ)) (h : AgcInv s) :
    AgcInv (processAudio s input) := by
  cases input with
  | none => exact h
  | some block =>
    rcases hb : blockRms block 100000 with _ | r <;> simp only [processAudio, hb]
    · exact h
    · exact ⟨h.1, h.2⟩

lemma AgcInv_loopStep (s : LoopState) (c : CycleInput) (h : AgcInv s) :
    AgcInv (loopStep s c) := by
  simp only [loopStep]
  split_ifs
  · exact AgcInv_recalibrate _ (AgcInv_processAudio s c.read h)
  · exact AgcInv_processAudio s c.read h
  · exact AgcInv_processAudio s c.read h

lemma AgcInv_runLoop (cs : List CycleInput) : ∀ s : LoopState, AgcInv s → AgcInv (runLoop s cs) := by
  induction cs with
  | nil => intro s h; exact h
  | cons c t ih =>
    intro s h
    simp only [runLoop, List.foldl_cons]
    exact ih _ (AgcInv_loopStep s c h)

/-- C2: starting from its initial value 2.0, `dynamicScaleFactor` stays
strictly positive over any number of loop cycles (the peaks put into the
history are always non-negative); each AGC recalibration either leaves the
gain unchanged (when the average peak is not positive) or replaces it by
`dynamicScaleFactor * 0.8 + (3000 / averagePeak) * 0.2` with a positive
average peak. -/
theorem dynamicScaleFactor_positive (b : ℝ) (cs : List CycleInput) :
    0 < (runLoop (initState b) cs).dynamicScaleFactor
      ∧ ∀ s : LoopState,
          (recalibrateScale s).dynamicScaleFactor =
            if 0 < getAveragePeak (insertSignificantPeak s) then
              s.dynamicScaleFactor * 0.8
                + 3000 / getAveragePeak (insertSignificantPeak s) * 0.2
            else s.dynamicScaleFactor := by
  constructor
  · exact (AgcInv_runLoop cs (initState b) ⟨fun i => le_rfl, by norm_num [initState]⟩).2
  · intro s
    simp only [recalibrateScale]
    split_ifs with havg
    · show (insertSignificantPeak s).dynamicScaleFactor * 0.8
          + 3000 / getAveragePeak (insertSignificantPeak s) * 0.2
        = s.dynamicScaleFactor * 0.8 + 3000 / getAveragePeak (insertSignificantPeak s) * 0.2
      rw [insert_dsf]
    · exact insert_dsf s

/-! ### Volume range — int32 square overflow -/

/-- C10 evidence: the claimed bound on `smoothVolume` fails in the firmware.
The single-sample block `[786432000]` is accepted by the spike filter (it
shifts to `48000`, below the threshold `100000`), but the int32 product
`48000 * 48000` wraps to `-1990967296`, so the block's accumulated square-sum
is negative: the firmware computes the square root of a negative number,
`rms` becomes NaN, NaN passes `max`, the noise gate and `constrain` (every
comparison with NaN is false), and the EMA
`smoothVolume = smoothVolume * 0.2 + volume * 0.8` then keeps `smoothVolume`
NaN — outside `[0, 3000]` — on every later cycle. -/
theorem smoothVolume_bound_failing_input :
    shifted14 786432000 = 48000
      ∧ |(48000:ℤ)| < 100000
      ∧ validShifted [786432000] 100000 = [48000]
      ∧ sq32 48000 = -1990967296
      ∧ sumSq32 [786432000] 100000 < 0 := by
  have hv : validShifted [786432000] 100000 = [48000] := by decide
  have hsq : sq32 48000 = -1990967296 := by decide
  refine ⟨by decide, by decide, hv, hsq, ?_⟩
  simp only [sumSq32, hv, List.map_cons, List.map_nil, List.sum_cons, List.sum_nil, hsq]
  norm_num

/-! ### Calibration -/

lemma calibFold (reads : List (Option (List ℤ))) : ∀ (a : ℝ) (n : ℕ),
    reads.foldl calibStep (a, n)
      = (a + (reads.filterMap (fun r => r.bind fun blk => blockRms blk 50000)).sum,
         n + (reads.filterMap (fun r => r.bind fun blk => blockRms blk 50000)).length) := by
  induction reads with
  | nil => intro a n; simp
  | cons r t ih =>
    intro a n
    cases r with
    | none =>
      simp only [List.foldl_cons, List.filterMap_cons, Option.none_bind]
      exact ih a n
    | some blk =>
      rcases hb : blockRms blk 50000 with _ | rms <;>
        simp only [List.foldl_cons, List.filterMap_cons, Option.some_bind, hb, calibStep]
      · exact ih a n
      · rw [ih (a + rms) (n + 1)]
        refine Prod.ext ?_ ?_ <;> simp [List.sum_cons] <;> [ring; omega]

/-- C5: after calibration over the 100 sample blocks, if no block produced a
valid RMS then `baselineNoise` keeps its compiled-in default 15000; if some
blocks were valid — restricted to runs in which no block's 32-bit-wrapped
square-sum is negative, i.e. the runs in which the firmware's `sqrt` never
produces NaN and the model RMS equals the program RMS — `baselineNoise` is
the arithmetic mean of the per-block RMS values, including a mean of exactly
0 for a genuinely silent room with valid samples. -/
theorem calibrateBaseline_default_or_mean (reads : List (Option (List ℤ)))
    (h100 : reads.length = 100) :
    (reads.filterMap (fun r => r.bind fun blk => blockRms blk 50000) = [] →
        calibrateBaseline reads = 15000)
      ∧ ∀ vs : List ℝ,
          reads.filterMap (fun r => r.bind fun blk => blockRms blk 50000) = vs →
          vs ≠ [] →
          (∀ o ∈ reads, ∀ blk : List ℤ, o = some blk → 0 ≤ sumSq32 blk 50000) →
          calibrateBaseline reads = vs.sum / (vs.length : ℝ)
            ∧ ((∀ x ∈ vs, x = 0) → calibrateBaseline reads = 0) := by
  have hf := calibFold reads 0 0
  constructor
  · intro he
    simp only [calibrateBaseline]
    rw [hf, he]
    simp
  · intro vs hvs hne hok
    have hlen : 0 < vs.length := List.length_pos.mpr hne
    have hmean : calibrateBaseline reads = vs.sum / (vs.length : ℝ) := by
      simp only [calibrateBaseline]
      rw [hf, hvs]
      simp only [zero_add]
      rw [if_pos hlen]
    refine ⟨hmean, fun hz => ?_⟩
    rw [hmean, List.sum_eq_zero hz, zero_div]

lemma filterMap_calib_replicate_none (n : ℕ) :
    (List.replicate n (none : Option (List ℤ))).filterMap
      (fun r => r.bind fun blk => blockRms blk 50000) = [] := by
  induction n with
  | zero => rfl
  | succ k ih => simp [List.replicate_succ, List.filterMap_cons, ih]

theorem calibrateBaseline_witness :
    calibrateBaseline (List.replicate 100 (none : Option (List ℤ))) = 15000
      ∧ calibrateBaseline ((some [0]) :: List.replicate 99 (none : Option (List ℤ))) = 0 := by
  constructor
  · exact (calibrateBaseline_default_or_mean _ (by simp)).1
      (filterMap_calib_replicate_none 100)
  · have h0 : blockRms [0] 50000 = some 0 := by
      norm_num [blockRms, sumSq32, sq32, validShifted, shifted14, Int.fdiv, Real.sqrt_zero]
    have hvs : ((some [0] : Option (List ℤ)) :: List.replicate 99 none).filterMap
        (fun r => r.bind fun blk => blockRms blk 50000) = [(0:ℝ)] := by
      simp [List.filterMap_cons, h0, filterMap_calib_replicate_none 99]
    have hok : ∀ o ∈ ((some [0] : Option (List ℤ)) :: List.replicate 99 none),
        ∀ blk : List ℤ, o = some blk → 0 ≤ sumSq32 blk 50000 := by
      intro o ho blk hblk
      rcases List.mem_cons.mp ho with rfl | hmem
      · injection hblk with he
        subst he
        norm_num [sumSq32, sq32, validShifted, shifted14, Int.fdiv]
      · rw [List.eq_of_mem_replicate hmem] at hblk
        exact absurd hblk (by simp)
    exact ((calibrateBaseline_default_or_mean _ (by simp)).2 [(0:ℝ)] hvs
      (by simp) hok).2 (by intro x hx; simpa using hx)

/-! ### Level-to-Light mapper -/

lemma constrainZ_le_hi (x lo hi : ℤ) (h : lo ≤ hi) : constrainZ x lo hi ≤ hi := by
  unfold constrainZ
  split_ifs <;> omega

lemma constrainZ_mono (x y lo hi : ℤ) (hlh : lo ≤ hi) (h : x ≤ y) :
    constrainZ x lo hi ≤ constrainZ y lo hi := by
  unfold constrainZ
  split_ifs <;> omega

lemma round_mono_real (x y : ℝ) (h : x ≤ y) : round x ≤ round y := by
  rw [round_eq, round_eq]
  exact Int.floor_le_floor (by linarith)

/-- C6: `smoothVolume ≤ MIN_VOLUME = 1500` (in particular 0) lights 0 pixels,
`smoothVolume ≥ 0.95 * 3000 = 2850` (in particular 3000) lights all 60, and
the lit-pixel count is monotone non-decreasing in `smoothVolume` above
MIN_VOLUME. -/
theorem mapper_endpoints_monotone :
    (∀ v : ℝ, v ≤ 1500 → numLedsToLight v = 0)
      ∧ numLedsToLight 0 = 0
      ∧ numLedsToLight 3000 = 60
      ∧ (∀ v : ℝ, 2850 ≤ v → numLedsToLight v = 60)
      ∧ (∀ a c : ℝ, 1500 < a → a ≤ c → numLedsToLight a ≤ numLedsToLight c) := by
  have hlow : ∀ v : ℝ, v ≤ 1500 → numLedsToLight v = 0 := by
    intro v hv
    simp only [numLedsToLight]
    rw [if_neg (not_lt.mpr hv)]
  have hhigh : ∀ v : ℝ, 2850 ≤ v → numLedsToLight v = 60 := by
    intro v hv
    simp only [numLedsToLight]
    rw [if_pos (by linarith : v > 1500), if_pos (by norm_num; linarith : v ≥ 3000 * 0.95)]
  refine ⟨hlow, hlow 0 (by norm_num), hhigh 3000 (by norm_num), hhigh, ?_⟩
  intro a c ha hac
  have hc : (1500:ℝ) < c := lt_of_lt_of_le ha hac
  simp only [numLedsToLight]
  rw [if_pos ha, if_pos hc]
  by_cases hc95 : c ≥ 3000 * 0.95
  · rw [if_pos hc95]
    by_cases ha95 : a ≥ 3000 * 0.95
    · rw [if_pos ha95]
    · rw [if_neg ha95]
      exact constrainZ_le_hi _ _ _ (by norm_num)
  · have ha95 : ¬ a ≥ 3000 * 0.95 := fun hge => hc95 (le_trans hge hac)
    rw [if_neg hc95, if_neg ha95]
    apply constrainZ_mono _ _ _ _ (by norm_num)
    apply round_mono_real
    apply mul_le_mul_of_nonneg_right _ (by norm_num : (0:ℝ) ≤ 60)
    apply Real.rpow_le_rpow
    · exact div_nonneg (by linarith) (by norm_num)
    · rw [div_le_div_iff_of_pos_right (by norm_num : (0:ℝ) < 3000 - 1500)]
      linarith
    · norm_num

theorem mapper_witness :
    numLedsToLight 1000 = 0 ∧ numLedsToLight 2900 = 60
      ∧ numLedsToLight 1600 ≤ numLedsToLight 1700 :=
  ⟨mapper_endpoints_monotone.1 1000 (by norm_num),
   mapper_endpoints_monotone.2.2.2.1 2900 (by norm_num),
   mapper_endpoints_monotone.2.2.2.2 1600 1700 (by norm_num) (by norm_num)⟩

lemma half_rpow_pow_ten : ((1/2:ℝ) ^ (0.7:ℝ)) ^ (10:ℕ) = 1/128 := by
  rw [← Real.rpow_natCast ((1/2:ℝ) ^ (0.7:ℝ)) 10,
    ← Real.rpow_mul (by norm_num : (0:ℝ) ≤ 1/2)]
  rw [show (0.7 * ((10:ℕ):ℝ) : ℝ) = ((7:ℕ):ℝ) by push_cast; norm_num]
  rw [Real.rpow_natCast]
  norm_num

lemma half_rpow_bounds : 0.615 < (1/2:ℝ) ^ (0.7:ℝ) ∧ (1/2:ℝ) ^ (0.7:ℝ) < 0.616 := by
  have hnn : (0:ℝ) ≤ (1/2:ℝ) ^ (0.7:ℝ) := Real.rpow_nonneg (by norm_num) _
  constructor
  · apply lt_of_pow_lt_pow_left₀ 10 hnn
    rw [half_rpow_pow_ten]
    norm_num
  · apply lt_of_pow_lt_pow_left₀ 10 (by norm_num : (0:ℝ) ≤ 0.616)
    rw [half_rpow_pow_ten]
    norm_num

lemma round_half_rpow_60 : round ((1/2:ℝ) ^ (0.7:ℝ) * 60) = 37 := by
  have hb := half_rpow_bounds
  rw [round_eq]
  apply Int.floor_eq_iff.mpr
  constructor
  · push_cast
    linarith [hb.1]
  · push_cast
    linarith [hb.2]

/-- C7: for a settled `smoothVolume = 2250` the mapper computes
`normalized = 0.5`, a curved value `0.5 ^ 0.7 ≈ 0.616`, and lights
`round(0.5^0.7 * 60) = 37` pixels; the lit pixels expand outward from the
strip midpoint 30 — even ordinal `2k` goes to `30 + k` (right of center),
odd ordinal `2k + 1` goes to `30 - 1 - k` (left of center). -/
theorem scenario_settled_2250 :
    ((2250:ℝ) - 1500) / (3000 - 1500) = 0.5
      ∧ 0.615 < (0.5:ℝ) ^ (0.7:ℝ) ∧ (0.5:ℝ) ^ (0.7:ℝ) < 0.616
      ∧ numLedsToLight 2250 = 37
      ∧ ledIndexFor 0 = 30
      ∧ ∀ k : ℕ, ledIndexFor (2 * k) = 30 + (k:ℤ)
          ∧ ledIndexFor (2 * k + 1) = 30 - 1 - (k:ℤ) := by
  have h05 : ((2250:ℝ) - 1500) / (3000 - 1500) = 0.5 := by norm_num
  have hhalf : (0.5:ℝ) = 1/2 := by norm_num
  refine ⟨h05, ?_, ?_, ?_, rfl, ?_⟩
  · rw [hhalf]; exact half_rpow_bounds.1
  · rw [hhalf]; exact half_rpow_bounds.2
  · simp only [numLedsToLight]
    rw [if_pos (by norm_num : (2250:ℝ) > 1500),
      if_neg (by norm_num : ¬ (2250:ℝ) ≥ 3000 * 0.95)]
    rw [h05, hhalf, round_half_rpow_60]
    decide
  · intro k
    have hme : (2 * k) % 2 = 0 := by omega
    have hde : (2 * k) / 2 = k := by omega
    have hmo : (2 * k + 1) % 2 = 1 := by omega
    have hdo : (2 * k + 1) / 2 = k := by omega
    constructor
    · simp [ledIndexFor, hme, hde]
    · simp [ledIndexFor, hmo, hdo]

/-! ### Envelope extractor -/

/-- Below the wrap bound the int32 product is the exact square:
`46340 ^ 2 = 2147395600` still fits in an `int32_t`. -/
lemma sq32_eq_sq (s : ℤ) (h : |s| ≤ 46340) : sq32 s = s ^ 2 := by
  have hb := abs_le.mp h
  have h0 : 0 ≤ s * s := mul_self_nonneg s
  have h1 : s * s ≤ 46340 * 46340 := by nlinarith [hb.1, hb.2]
  unfold sq32
  rw [Int.emod_eq_of_lt (by omega) (by omega)]
  ring

/-- C8 counterexample, two explicit inputs on which the claim fails.
First, the raw sample `1638400000` shifts to exactly the outlier threshold
`100000`: its absolute value does not exceed the threshold, yet the filter
discards it (the code keeps only `abs(sample) < threshold`), so the block has
no valid sample and yields no RMS, where the claim requires it to be
accumulated.  Second, the kept shifted sample `90000` (raw `1474560000`) is
not squared exactly: the int32 product wraps to `-489934592` instead of
`90000 ^ 2 = 8100000000`, so the block's accumulated "sum of squares" is
negative and the RMS is not `sqrt(sum of squares / valid count)`. -/
theorem envelope_threshold_counterexample :
    shifted14 1638400000 = 100000
      ∧ ¬ (|shifted14 1638400000| > 100000)
      ∧ validShifted [1638400000] 100000 = []
      ∧ blockRms [1638400000] 100000 = none
      ∧ validShifted [1474560000] 100000 = [90000]
      ∧ sq32 90000 = -489934592
      ∧ (90000:ℤ) ^ 2 = 8100000000
      ∧ sq32 90000 ≠ (90000:ℤ) ^ 2
      ∧ sumSq32 [1474560000] 100000 < 0 := by
  have hv : validShifted [1474560000] 100000 = [90000] := by decide
  have hsq : sq32 90000 = -489934592 := by decide
  refine ⟨by decide, by decide, by decide, blockRms_none_of_empty _ _ (by decide),
    hv, hsq, by norm_num, by decide, ?_⟩
  simp only [sumSq32, hv, List.map_cons, List.map_nil, List.sum_cons, List.sum_nil, hsq]
  norm_num

/-- C8 (amended): the envelope extractor shifts every sample right by 14
bits, keeps exactly the shifted samples with `|s| < threshold` — one whose
absolute value equals the threshold is discarded, not accumulated — and
accumulates the 32-bit-wrapped products `sample * sample` of the kept
samples: that sum is the true sum of squares exactly when every kept sample
stays below the wrap bound `46341`, and when at least one valid sample
remains and the accumulated sum is non-negative (no NaN) the result is
`sqrt(sum / valid count)`. -/
theorem envelope_extractor_rms (block : List ℤ) (T : ℤ) :
    (blockRms block T = none ↔ validShifted block T = [])
      ∧ (∀ x : ℤ, |x| = T → x ∉ validShifted block T)
      ∧ ((∀ s ∈ validShifted block T, |s| ≤ 46340) →
          sumSq32 block T = ((validShifted block T).map (fun s : ℤ => ((s:ℝ)) ^ 2)).sum)
      ∧ ∀ r : ℝ, blockRms block T = some r → 0 ≤ sumSq32 block T →
          r = Real.sqrt (sumSq32 block T / ((validShifted block T).length : ℝ)) := by
  refine ⟨?_, ?_, ?_, ?_⟩
  · simp only [blockRms]
    split_ifs with h
    · rw [List.length_eq_zero] at h
      simp [h]
    · have hne : validShifted block T ≠ [] := by
        intro he
        rw [he] at h
        exact h rfl
      simp [hne]
  · intro x hx hmem
    have hp := List.of_mem_filter hmem
    have hlt : |x| < T := of_decide_eq_true hp
    rw [hx] at hlt
    exact lt_irrefl _ hlt
  · intro hno
    simp only [sumSq32]
    refine congrArg List.sum (List.map_congr_left ?_)
    intro s hs
    rw [sq32_eq_sq s (hno s hs)]
    push_cast
    ring
  · intro r hr hnn
    simp only [blockRms] at hr
    split_ifs at hr with h
    injection hr with h2
    exact h2.symm

theorem envelope_extractor_witness :
    ((100000:ℤ) ∉ validShifted [0] 100000)
      ∧ sumSq32 [0] 100000 = (((validShifted [0] 100000).map (fun s : ℤ => ((s:ℝ)) ^ 2)).sum)
      ∧ (0:ℝ) = Real.sqrt (sumSq32 [0] 100000 / ((validShifted [0] 100000).length : ℝ)) := by
  have h := envelope_extractor_rms [0] 100000
  refine ⟨h.2.1 100000 (by decide), h.2.2.1 (by decide), h.2.2.2 0 ?_ ?_⟩
  · norm_num [blockRms, sumSq32, sq32, validShifted, shifted14, Int.fdiv, Real.sqrt_zero]
  · norm_num [sumSq32, sq32, validShifted, shifted14, Int.fdiv]

/-! ### Telemetry -/

/-- C9 (code evaluation): a telemetry tick with `volume = 0`,
`smoothVolume = 0`, `maxVolume = 3000` and a formatter printing floats as
`0.00` / `3000.00` emits a line in which the `MinRange` pair and the `Volume`
pair are NOT separated by a comma (the remaining pairs are): the code omits
the `","` before `"Volume:"`. -/
theorem telemetry_line_missing_comma :
    telemetryLine (fun x => if x = 0 then "0.00" else "3000.00") 0 0 3000
      = "MinRange:-1000Volume:0.00,SmoothVolume:0.00,MaxVolume:3000.00,MaxRange:5000\n" := by
  have h3 : ((3000:ℝ) = 0) = False := by norm_num
  simp only [telemetryLine, if_pos rfl, h3, if_false]
  rfl

end Lightshow
